import Mathlib

/-!
Verification of the `partitionhelper` package (pkg/base/linuxutils/partitionhelper):
a shallow embedding of `partition_helper.go` and proofs about its operations.

The Go strings are modelled as Lean `String`s; the Go string-library functions
used by the package (`strings.Split`, `strings.TrimSpace`, `strings.Contains`,
`strings.ToLower`) are re-implemented over `List Char` below, mirroring their
documented Go semantics. The command executor dependency is a function from a
command line to its captured result, and every operation additionally records
the list of command lines it issued, so that claims about which external
commands run are statable.
-/

set_option maxHeartbeats 1000000
set_option maxRecDepth 100000

namespace PartitionHelper

/-- Result of running one external command through the executor: captured
stdout and stderr, and the Go error (`none` models a nil error, `some msg` a
non-nil error whose `Error()` text is `msg`). -/
structure ExecResult where
  stdout : String
  stderr : String
  err : Option String
deriving DecidableEq

/-- The `command.CmdExecutor` collaborator: its `RunCmd` capability, as a
function from the command line to the captured result. -/
abbrev CmdExecutor := String → ExecResult

/-- Return of one `Partitioner` operation: the Go return value, the Go error,
and the list of command lines the operation passed to the executor (the
instrumentation a spy executor would record). -/
structure OpResult (α : Type) where
  value : α
  err : Option String
  calls : List String
deriving DecidableEq

/-! ## Go string-library functions used by the package -/

/-- Characters reported as white space by Go `unicode.IsSpace`:
tab through carriage return, space, NEL, NBSP, and the Unicode
White_Space code points. -/
def goIsSpace (c : Char) : Bool :=
  let n := c.toNat
  n == 0x20 || (0x9 ≤ n && n ≤ 0xD) || n == 0x85 || n == 0xA0 ||
  n == 0x1680 || (0x2000 ≤ n && n ≤ 0x200A) ||
  n == 0x2028 || n == 0x2029 || n == 0x202F || n == 0x205F || n == 0x3000

/-- Drop leading white space from a character list. -/
def trimLeftL (l : List Char) : List Char := l.dropWhile goIsSpace

/-- Drop trailing white space from a character list. -/
def trimRightL (l : List Char) : List Char := (l.reverse.dropWhile goIsSpace).reverse

/-- Model of Go `strings.TrimSpace`: removes leading and trailing white space. -/
def trimSpace (s : String) : String := String.mk (trimRightL (trimLeftL s.data))

/-- Worker for `goSplitL` with a non-empty separator `c0 :: sepRest`:
scans left to right, cutting at each non-overlapping occurrence of the
separator; `acc` holds the current field reversed. `fuel` bounds the number
of characters still to be scanned — the wrapper passes the input length,
which the scan never exhausts — making the recursion structural (so that it
also reduces inside the kernel). -/
def goSplitGo (c0 : Char) (sepRest : List Char) : Nat → List Char → List Char → List (List Char)
  | 0, acc, l => [acc.reverse ++ l]
  | _ + 1, acc, [] => [acc.reverse]
  | fuel + 1, acc, c :: rest =>
    if c = c0 ∧ List.isPrefixOf sepRest rest then
      acc.reverse :: goSplitGo c0 sepRest fuel [] (rest.drop sepRest.length)
    else
      goSplitGo c0 sepRest fuel (c :: acc) rest

/-- Model of Go `strings.Split s sep` on character lists: splits around every
non-overlapping occurrence of `sep`, left to right; an empty separator splits
into individual characters (runes). -/
def goSplitL (s sep : List Char) : List (List Char) :=
  match sep with
  | [] => s.map (fun c => [c])
  | c0 :: sepRest => goSplitGo c0 sepRest s.length [] s

/-- Model of Go `strings.Split` on `String`. -/
def goSplitStr (s sep : String) : List String := (goSplitL s.data sep.data).map String.mk

/-- Occurrence test on character lists: some suffix of `s` starts with `sep`. -/
def containsSubL (sep : List Char) : List Char → Bool
  | [] => sep.isEmpty
  | c :: rest => List.isPrefixOf sep (c :: rest) || containsSubL sep rest

/-- Model of Go `strings.Contains s sub`. -/
def containsStr (s sub : String) : Bool := containsSubL sub.data s.data

/-- ASCII lower-casing of one character. -/
def lowerChar (c : Char) : Char :=
  if 0x41 ≤ c.toNat ∧ c.toNat ≤ 0x5A then Char.ofNat (c.toNat + 0x20) else c

/-- Model of Go `strings.ToLower`, restricted to ASCII letters (the GUID and
device-name alphabet this package lower-cases; Go additionally maps non-ASCII
letters, which never appear in the values handled here). -/
def goToLower (s : String) : String := String.mk (s.data.map lowerChar)

/-- Model of the `fmt` verb `%#v` applied to a string: Go renders the value as
a double-quoted Go string literal. Modelled for strings containing no
characters that `%#v` escapes (the device and partition identifiers this
package formats with `%#v` are plain ASCII). -/
def goQuoteV (s : String) : String := "\"" ++ s ++ "\""

/-- The single-quote character, used verbatim inside one error message. -/
def sq : String := String.mk [Char.ofNat 39]

/-- Proposition that `sub` occurs as a contiguous substring of `s`. -/
def OccursIn (s sub : String) : Prop := ∃ pre post, s.data = pre ++ sub.data ++ post

/-- Modelled from the spec: the repository helper `util.ContainsString`
(package pkg/base/util, whose source is not part of this tree) — the
"Containment Utility" capability, a "membership test of a string in a fixed
allow-list". -/
def ContainsString (slice : List String) (s : String) : Bool := slice.contains s

/-! ## Constants and command templates of partition_helper.go -/

/-- PartitionGPT is the const for GPT partition table. -/
def PartitionGPT : String := "gpt"

/-- Name of the parted system util (with trailing space, as in the source). -/
def parted : String := "parted "

/-- Name of the partprobe system util (with trailing space, as in the source). -/
def partprobe : String := "partprobe "

/-- Name of the sgdisk system util (with trailing space, as in the source). -/
def sgdisk : String := "sgdisk "

/-- List of supported partition table types. -/
def supportedTypes : List String := [PartitionGPT]

/-- PartprobeDeviceCmdTmpl with the device substituted for its `%s`. -/
def PartprobeDeviceCmd (device : String) : String := partprobe ++ "-d -s " ++ device

/-- PartprobeCmdTmpl with the device substituted for its `%s`. -/
def PartprobeCmd (device : String) : String := partprobe ++ device

/-- CreatePartitionTableCmdTmpl with device and table type substituted. -/
def CreatePartitionTableCmd (device partTableType : String) : String :=
  parted ++ "-s " ++ device ++ " mklabel " ++ partTableType

/-- CreatePartitionCmdTmpl with device and partition name substituted
(`%%` in the Go template renders as a literal percent sign). -/
def CreatePartitionCmd (device partName : String) : String :=
  parted ++ "-s " ++ device ++ " mkpart --align optimal " ++ partName ++ " 0% 100%"

/-- DeletePartitionCmdTmpl with device and partition number substituted. -/
def DeletePartitionCmd (device partNum : String) : String :=
  parted ++ "-s " ++ device ++ " rm " ++ partNum

/-- SetPartitionUUIDCmdTmpl with device, partition number and UUID substituted. -/
def SetPartitionUUIDCmd (device partNum partUUID : String) : String :=
  sgdisk ++ device ++ " --partition-guid=" ++ partNum ++ ":" ++ partUUID

/-- GetPartitionUUIDCmdTmpl with device and partition number substituted. -/
def GetPartitionUUIDCmd (device partNum : String) : String :=
  sgdisk ++ device ++ " --info=" ++ partNum

/-! ## The Partition operations -/

namespace Partition

/-- Embedding of `Partition.IsPartitionExists`: probes the device with
partprobe and decides existence from the text after the token "partitions". -/
def IsPartitionExists (e : CmdExecutor) (device partNum : String) : OpResult Bool :=
  let cmd := PartprobeDeviceCmd device
  let r := e cmd
  match r.err with
  | some _ =>
    ⟨false, some ("unable to check partition " ++ goQuoteV partNum ++
      " existence for " ++ device), [cmd]⟩
  | none =>
    let stdout := trimSpace r.stdout
    let s := goSplitStr stdout "partitions"
    if 1 < s.length ∧ s.getD 1 "" ≠ "" then ⟨true, none, [cmd]⟩
    else ⟨false, none, [cmd]⟩

/-- Embedding of `Partition.CreatePartitionTable`: rejects unsupported table
types before any external call, otherwise runs parted mklabel. -/
def CreatePartitionTable (e : CmdExecutor) (device partTableType : String) : OpResult Unit :=
  if !ContainsString supportedTypes partTableType then
    ⟨(), some ("unable to create partition table for device " ++ device ++
      " unsupported partition table type: " ++ goQuoteV partTableType), []⟩
  else
    let cmd := CreatePartitionTableCmd device partTableType
    let r := e cmd
    match r.err with
    | some _ => ⟨(), some ("unable to create partition table for device " ++ device), [cmd]⟩
    | none => ⟨(), none, [cmd]⟩

/-- Embedding of `Partition.GetPartitionTableType`: probes the device and
takes the element at index 1 of stdout split on a single space. -/
def GetPartitionTableType (e : CmdExecutor) (device : String) : OpResult String :=
  let cmd := PartprobeDeviceCmd device
  let r := e cmd
  match r.err with
  | some _ => ⟨"", some ("unable to get partition table for device " ++ device), [cmd]⟩
  | none =>
    let s := goSplitStr r.stdout " "
    if s.length < 2 then
      ⟨"", some ("unable to parse output " ++ sq ++ r.stdout ++ sq ++
        " for device " ++ device), [cmd]⟩
    else ⟨s.getD 1 "", none, [cmd]⟩

/-- Embedding of `Partition.CreatePartition`: runs parted mkpart and returns
any executor error unwrapped. -/
def CreatePartition (e : CmdExecutor) (device partName : String) : OpResult Unit :=
  let cmd := CreatePartitionCmd device partName
  let r := e cmd
  match r.err with
  | some m => ⟨(), some m, [cmd]⟩
  | none => ⟨(), none, [cmd]⟩

/-- Embedding of `Partition.DeletePartition`: runs parted rm and on failure
wraps the error with partition number, device, captured stderr and the
executor error text. -/
def DeletePartition (e : CmdExecutor) (device partNum : String) : OpResult Unit :=
  let cmd := DeletePartitionCmd device partNum
  let r := e cmd
  match r.err with
  | some m =>
    ⟨(), some ("unable to delete partition " ++ goQuoteV partNum ++ " from device " ++
      device ++ ": " ++ r.stderr ++ ", error: " ++ m), [cmd]⟩
  | none => ⟨(), none, [cmd]⟩

/-- Embedding of `Partition.SetPartitionUUID`: runs sgdisk --partition-guid
and returns any executor error unwrapped. -/
def SetPartitionUUID (e : CmdExecutor) (device partNum partUUID : String) : OpResult Unit :=
  let cmd := SetPartitionUUIDCmd device partNum partUUID
  let r := e cmd
  match r.err with
  | some m => ⟨(), some m, [cmd]⟩
  | none => ⟨(), none, [cmd]⟩

/-- The label scanned for in the sgdisk info report. -/
def partitionPresentation : String := "Partition unique GUID:"

/-- The line loop of `Partition.GetPartitionUUID`: for the first line that
contains the label and whose trimmed text splits into more than one piece on
the label, returns the piece at index 1, trimmed and lower-cased. -/
def guidFromLines (label : String) : List String → Option String
  | [] => none
  | line :: rest =>
    if containsStr line label then
      let res := goSplitStr (trimSpace line) label
      if 1 < res.length then some (goToLower (trimSpace (res.getD 1 "")))
      else guidFromLines label rest
    else guidFromLines label rest

/-- Embedding of `Partition.GetPartitionUUID`: runs sgdisk --info, scans the
stdout lines for the unique-GUID label, and reports a parse error naming the
device when no line yields a value. -/
def GetPartitionUUID (e : CmdExecutor) (device partNum : String) : OpResult String :=
  let cmd := GetPartitionUUIDCmd device partNum
  let r := e cmd
  match r.err with
  | some m => ⟨"", some m, [cmd]⟩
  | none =>
    match guidFromLines partitionPresentation (goSplitStr r.stdout "\n") with
    | some g => ⟨g, none, [cmd]⟩
    | none => ⟨"", some ("unable to get partition GUID for device " ++ device), [cmd]⟩

/-- Embedding of `Partition.SyncPartitionTable`: runs partprobe on the device
(possibly the empty string) and returns any executor error unwrapped. -/
def SyncPartitionTable (e : CmdExecutor) (device : String) : OpResult Unit :=
  let cmd := PartprobeCmd device
  let r := e cmd
  match r.err with
  | some m => ⟨(), some m, [cmd]⟩
  | none => ⟨(), none, [cmd]⟩

end Partition

/-! ## Lemmas about the string-library models -/

/-- Occurrence characterisation: `containsSubL sep s` holds exactly when `s`
decomposes around an occurrence of `sep`. -/
lemma containsSubL_iff (sep s : List Char) :
    containsSubL sep s = true ↔ ∃ a b, s = a ++ sep ++ b := by
  induction s with
  | nil =>
    simp only [containsSubL, List.isEmpty_iff]
    constructor
    · intro h; subst h; exact ⟨[], [], rfl⟩
    · rintro ⟨a, b, h⟩
      rcases List.append_eq_nil.mp h.symm with ⟨h1, _⟩
      exact (List.append_eq_nil.mp h1).2
  | cons c rest ih =>
    simp only [containsSubL, Bool.or_eq_true, List.isPrefixOf_iff_prefix, ih]
    constructor
    · rintro (⟨t, ht⟩ | ⟨a, b, hab⟩)
      · exact ⟨[], t, ht.symm⟩
      · exact ⟨c :: a, b, by simp [hab]⟩
    · rintro ⟨a, b, hab⟩
      cases a with
      | nil => exact Or.inl ⟨b, by simpa using hab.symm⟩
      | cons a0 a' =>
        rcases List.cons_eq_cons.mp hab with ⟨rfl, hrest⟩
        exact Or.inr ⟨a', b, hrest⟩

/-- An occurrence inside an infix of `s` is an occurrence inside `s`. -/
lemma containsSubL_of_infix {sep t s : List Char} (hinf : t <:+: s)
    (h : containsSubL sep t = true) : containsSubL sep s = true := by
  rcases (containsSubL_iff sep t).mp h with ⟨a, b, rfl⟩
  rcases hinf with ⟨u, v, rfl⟩
  exact (containsSubL_iff sep _).mpr ⟨u ++ a, b ++ v, by simp⟩

/-- Trimming from the left leaves a suffix. -/
lemma trimLeftL_suffix (l : List Char) : trimLeftL l <:+ l := List.dropWhile_suffix _

/-- Trimming from the right leaves a prefix. -/
lemma trimRightL_isPrefixOfInput (l : List Char) : trimRightL l <+: l := by
  have h := List.reverse_prefix.mpr (List.dropWhile_suffix (l := l.reverse) goIsSpace)
  rwa [List.reverse_reverse] at h

/-- The trimmed string is an infix of the original. -/
lemma trimSpace_isInfixOfInput (s : String) : (trimSpace s).data <:+: s.data :=
  ((trimRightL_isPrefixOfInput _).isInfix).trans ((trimLeftL_suffix _).isInfix)

/-- A character on which the predicate fails blocks `dropWhile` from eating
past it in an append. -/
lemma dropWhile_append_cons_of_neg {α : Type} {p : α → Bool} {c : α} (h : p c = false)
    (a d : List α) : (a ++ c :: d).dropWhile p = a.dropWhile p ++ c :: d := by
  induction a with
  | nil => simp [List.dropWhile_cons, h]
  | cons x xs ih =>
    by_cases hx : p x
    · simp [List.dropWhile_cons, hx, ih]
    · simp [List.dropWhile_cons, hx]

/-- A character on which `goIsSpace` fails blocks the right trim as well:
trailing white space is only removed after it. -/
lemma trimRightL_append_cons {d : Char} (hd : goIsSpace d = false) (P b : List Char) :
    trimRightL (P ++ d :: b) = P ++ d :: trimRightL b := by
  unfold trimRightL
  rw [List.reverse_append, List.reverse_cons, List.append_assoc, List.singleton_append,
    dropWhile_append_cons_of_neg hd, List.reverse_append, List.reverse_cons,
    List.reverse_reverse]
  simp

/-- A separator whose first and last characters are not white space survives
`trimSpace`: an occurrence in `s` yields an occurrence in the trimmed string. -/
lemma containsSubL_trimSpace {sep : List Char} {s : String}
    (hh : goIsSpace (sep.headD ' ') = false)
    (hl : goIsSpace (sep.getLastD ' ') = false)
    (h : containsSubL sep s.data = true) :
    containsSubL sep (trimSpace s).data = true := by
  cases hsep : sep with
  | nil => rw [hsep] at hh; exact absurd hh (by decide)
  | cons c0 cs =>
    subst hsep
    rcases (containsSubL_iff _ _).mp h with ⟨a, b, hab⟩
    have hc0 : goIsSpace c0 = false := by simpa using hh
    -- the left trim stops at (or before) the occurrence
    have hleft : trimLeftL s.data = a.dropWhile goIsSpace ++ (c0 :: cs) ++ b := by
      unfold trimLeftL
      rw [hab, List.append_assoc, List.cons_append, dropWhile_append_cons_of_neg hc0]
      simp
    -- the right trim stops at (or before) the occurrence
    cases hrev : (c0 :: cs).reverse with
    | nil => exact absurd hrev (by simp)
    | cons d ds =>
      have hd : goIsSpace d = false := by
        have h1 : (c0 :: cs).getLast? = some d := by
          rw [← List.head?_reverse, hrev]; rfl
        have h2 : (c0 :: cs).getLastD ' ' = d := by
          rw [List.getLastD_eq_getLast?, h1]; rfl
        rwa [h2] at hl
      have hC : c0 :: cs = ds.reverse ++ [d] := by
        have := congrArg List.reverse hrev
        simpa using this
      refine (containsSubL_iff _ _).mpr
        ⟨a.dropWhile goIsSpace, trimRightL b, ?_⟩
      show trimRightL (trimLeftL s.data) = _
      rw [hleft, hC]
      rw [show a.dropWhile goIsSpace ++ (ds.reverse ++ [d]) ++ b
          = (a.dropWhile goIsSpace ++ ds.reverse) ++ d :: b by simp]
      rw [trimRightL_append_cons hd]
      simp

/-- The split worker never returns an empty list of fields. -/
lemma goSplitGo_length_pos (c0 : Char) (sr : List Char) :
    ∀ (fuel : Nat) (l acc : List Char), 0 < (goSplitGo c0 sr fuel acc l).length := by
  intro fuel
  induction fuel with
  | zero => intro l acc; simp [goSplitGo]
  | succ fuel ih =>
    intro l acc
    cases l with
    | nil => simp [goSplitGo]
    | cons c rest =>
      rw [goSplitGo]
      by_cases hc : c = c0 ∧ List.isPrefixOf sr rest = true
      · rw [if_pos hc]; simp
      · rw [if_neg hc]; exact ih _ _

/-- Splitting on a separator that does not occur returns the single field
`acc.reverse ++ l`, regardless of the fuel. -/
lemma goSplitGo_no_match (c0 : Char) (sr : List Char) :
    ∀ (fuel : Nat) (l acc : List Char), containsSubL (c0 :: sr) l = false →
      goSplitGo c0 sr fuel acc l = [acc.reverse ++ l] := by
  intro fuel
  induction fuel with
  | zero => intro l acc _; simp [goSplitGo]
  | succ fuel ih =>
    intro l acc h
    cases l with
    | nil => simp [goSplitGo]
    | cons c rest =>
      simp only [containsSubL, Bool.or_eq_false_iff] at h
      have hpre : ¬(c = c0 ∧ List.isPrefixOf sr rest = true) := by
        rintro ⟨rfl, hp⟩
        have : List.isPrefixOf (c :: sr) (c :: rest) = true := by
          rcases List.isPrefixOf_iff_prefix.mp hp with ⟨t, ht⟩
          exact List.isPrefixOf_iff_prefix.mpr ⟨t, by rw [List.cons_append, ht]⟩
        rw [this] at h
        exact absurd h.1 (by simp)
      rw [goSplitGo, if_neg hpre, ih _ _ (by simp [containsSubL, h.2])]
      simp

/-- Splitting on a separator that occurs produces at least two fields, given
fuel covering the input. -/
lemma goSplitGo_one_lt_of_contains (c0 : Char) (sr : List Char) :
    ∀ (fuel : Nat) (l acc : List Char), l.length ≤ fuel →
      containsSubL (c0 :: sr) l = true →
      1 < (goSplitGo c0 sr fuel acc l).length := by
  intro fuel
  induction fuel with
  | zero =>
    intro l acc hfuel h
    rw [List.length_eq_zero.mp (Nat.le_zero.mp hfuel)] at h
    simp [containsSubL] at h
  | succ fuel ih =>
    intro l acc hfuel h
    cases l with
    | nil => simp [containsSubL] at h
    | cons c rest =>
      rw [goSplitGo]
      by_cases hc : c = c0 ∧ List.isPrefixOf sr rest = true
      · rw [if_pos hc]
        have := goSplitGo_length_pos c0 sr fuel (rest.drop sr.length) []
        simp only [List.length_cons]
        omega
      · rw [if_neg hc]
        have hrest : rest.length ≤ fuel := by
          simp only [List.length_cons] at hfuel
          omega
        refine ih _ _ hrest ?_
        simp only [containsSubL, Bool.or_eq_true] at h
        rcases h with hp | hcont
        · exfalso
          rcases List.isPrefixOf_iff_prefix.mp hp with ⟨t, ht⟩
          rcases List.cons_eq_cons.mp ((List.cons_append c0 sr t) ▸ ht) with ⟨rfl, hrest2⟩
          exact hc ⟨rfl, List.isPrefixOf_iff_prefix.mpr ⟨t, hrest2⟩⟩
        · exact hcont

/-- `goSplitL` with an absent separator returns the whole input as the single
field. -/
lemma goSplitL_of_not_contains {sep l : List Char} (hsep : sep ≠ [])
    (h : containsSubL sep l = false) : goSplitL l sep = [l] := by
  cases sep with
  | nil => exact absurd rfl hsep
  | cons c0 sr =>
    show goSplitGo c0 sr l.length [] l = [l]
    rw [goSplitGo_no_match c0 sr l.length l [] h]
    simp

/-- `goSplitL` with a present non-empty separator returns more than one field. -/
lemma goSplitL_one_lt_of_contains {sep l : List Char} (hsep : sep ≠ [])
    (h : containsSubL sep l = true) : 1 < (goSplitL l sep).length := by
  cases sep with
  | nil => exact absurd rfl hsep
  | cons c0 sr => exact goSplitGo_one_lt_of_contains c0 sr l.length l [] (Nat.le_refl _) h

/-- A string containing a label whose first and last characters are not white
space still splits into more than one piece after trimming. -/
lemma goSplitStr_trim_one_lt {label s : String}
    (hh : goIsSpace (label.data.headD ' ') = false)
    (hl : goIsSpace (label.data.getLastD ' ') = false)
    (hc : containsStr s label = true) :
    1 < (goSplitStr (trimSpace s) label).length := by
  have hne : label.data ≠ [] := by
    intro h0
    rw [h0] at hh
    exact absurd hh (by decide)
  have h2 := containsSubL_trimSpace hh hl hc
  have h3 := goSplitL_one_lt_of_contains hne h2
  simpa [goSplitStr] using h3

/-- The GUID line scan returns nothing when no line contains the label. -/
lemma guidFromLines_eq_none (label : String) :
    ∀ lines : List String, (∀ l ∈ lines, containsStr l label = false) →
      Partition.guidFromLines label lines = none := by
  intro lines
  induction lines with
  | nil => intro _; rfl
  | cons l rest ih =>
    intro h
    have hl := h l (List.mem_cons_self l rest)
    rw [Partition.guidFromLines, if_neg (by simp [hl])]
    exact ih fun x hx => h x (List.mem_cons_of_mem _ hx)

/-- The GUID line scan skips any prefix of label-free lines. -/
lemma guidFromLines_append_skip (label : String) (rest : List String) :
    ∀ pfx : List String, (∀ l ∈ pfx, containsStr l label = false) →
      Partition.guidFromLines label (pfx ++ rest) = Partition.guidFromLines label rest := by
  intro pfx
  induction pfx with
  | nil => intro _; rfl
  | cons l p ih =>
    intro h
    have hl := h l (List.mem_cons_self l p)
    rw [List.cons_append, Partition.guidFromLines, if_neg (by simp [hl])]
    exact ih fun x hx => h x (List.mem_cons_of_mem _ hx)

/-- The GUID line scan stops at the first line containing the label, when that
line splits into more than one piece. -/
lemma guidFromLines_cons_match {label line : String} (rest : List String)
    (hc : containsStr line label = true)
    (hlen : 1 < (goSplitStr (trimSpace line) label).length) :
    Partition.guidFromLines label (line :: rest) =
      some (goToLower (trimSpace ((goSplitStr (trimSpace line) label).getD 1 ""))) := by
  rw [Partition.guidFromLines, if_pos hc, if_pos hlen]

/-! ## Spy executor stubs used by the claim theorems -/

/-- Executor stub that succeeds on every command with the given stdout. -/
def okExec (out : String) : CmdExecutor := fun _ => ⟨out, "", none⟩

/-- Executor stub that fails every command with the given stderr text and
error message. -/
def failExec (stderrText errText : String) : CmdExecutor := fun _ => ⟨"", stderrText, some errText⟩

/-! ## The claims -/

/-- C1: CreatePartitionTable rejects every table type other than "gpt" (the
whole allow-list) with the invalid-input error naming the device and the
type, and issues no executor command at all; for the type "gpt" it formats
and issues exactly the one mklabel command. -/
theorem claim_C1_createPartitionTable_allow_list (e : CmdExecutor) (device partTableType : String) :
    (partTableType ≠ PartitionGPT →
      Partition.CreatePartitionTable e device partTableType =
        ⟨(), some ("unable to create partition table for device " ++ device ++
          " unsupported partition table type: " ++ goQuoteV partTableType), []⟩) ∧
    (partTableType = PartitionGPT →
      (Partition.CreatePartitionTable e device partTableType).calls =
        [CreatePartitionTableCmd device partTableType]) := by
  constructor
  · intro hne
    have hcon : ContainsString supportedTypes partTableType = false := by
      simp [ContainsString, supportedTypes, PartitionGPT]
      exact fun h => absurd h hne
    simp [Partition.CreatePartitionTable, hcon]
  · intro heq
    have hcon : ContainsString supportedTypes partTableType = true := by
      simp [ContainsString, supportedTypes, PartitionGPT, heq]
    simp only [Partition.CreatePartitionTable, hcon]
    cases h : (e (CreatePartitionTableCmd device partTableType)).err <;> simp [h]

/-- C1 witness: the rejection for "msdos" (zero calls) and the single mklabel
command for "gpt", at concrete inputs. -/
theorem claim_C1_createPartitionTable_allow_list_witness :
    Partition.CreatePartitionTable (okExec "") "/dev/sda" "msdos" =
      ⟨(), some ("unable to create partition table for device " ++ "/dev/sda" ++
        " unsupported partition table type: " ++ goQuoteV "msdos"), []⟩ ∧
    (Partition.CreatePartitionTable (okExec "") "/dev/sda" "gpt").calls =
      [CreatePartitionTableCmd "/dev/sda" "gpt"] :=
  ⟨(claim_C1_createPartitionTable_allow_list (okExec "") "/dev/sda" "msdos").1 (by decide),
   (claim_C1_createPartitionTable_allow_list (okExec "") "/dev/sda" "gpt").2 rfl⟩

/-- C3: with a succeeding executor, IsPartitionExists answers true for the
probe stdout "/dev/sdy: gpt partitions 1 2" and false for
"/dev/sdy: gpt partitions " and "/dev/sdy: gpt partitions"; in general the
answer is true exactly when the trimmed stdout, split on the token
"partitions", has more than one field and a non-empty field at index 1. -/
theorem claim_C3_isPartitionExists_probe_parse :
    (Partition.IsPartitionExists (okExec "/dev/sdy: gpt partitions 1 2") "/dev/sdy" "1").value
        = true ∧
    (Partition.IsPartitionExists (okExec "/dev/sdy: gpt partitions ") "/dev/sdy" "1").value
        = false ∧
    (Partition.IsPartitionExists (okExec "/dev/sdy: gpt partitions") "/dev/sdy" "1").value
        = false ∧
    ∀ (e : CmdExecutor) (device partNum : String),
      (e (PartprobeDeviceCmd device)).err = none →
      ((Partition.IsPartitionExists e device partNum).value = true ↔
        (1 < (goSplitStr (trimSpace (e (PartprobeDeviceCmd device)).stdout) "partitions").length ∧
         (goSplitStr (trimSpace (e (PartprobeDeviceCmd device)).stdout) "partitions").getD 1 ""
           ≠ "")) := by
  refine ⟨by decide, by decide, by decide, ?_⟩
  intro e device partNum herr
  simp only [Partition.IsPartitionExists, herr]
  split
  next hcond => exact iff_of_true rfl hcond
  next hcond => exact iff_of_false (by simp) hcond

/-- C3 witness: the general characterisation applied to the concrete probe
output with two partitions. -/
theorem claim_C3_isPartitionExists_probe_parse_witness :
    (Partition.IsPartitionExists (okExec "/dev/sdy: gpt partitions 1 2") "/dev/sdy" "1").value
        = true ↔
      (1 < (goSplitStr (trimSpace ((okExec "/dev/sdy: gpt partitions 1 2")
          (PartprobeDeviceCmd "/dev/sdy")).stdout) "partitions").length ∧
       (goSplitStr (trimSpace ((okExec "/dev/sdy: gpt partitions 1 2")
          (PartprobeDeviceCmd "/dev/sdy")).stdout) "partitions").getD 1 "" ≠ "") :=
  claim_C3_isPartitionExists_probe_parse.2.2.2
    (okExec "/dev/sdy: gpt partitions 1 2") "/dev/sdy" "1" rfl

/-- C7: SyncPartitionTable on the empty device argument issues exactly the
command "partprobe " (the template with the empty string substituted) and
returns a nil error when the executor succeeds. -/
theorem claim_C7_syncPartitionTable_empty_device (e : CmdExecutor)
    (h : (e (PartprobeCmd "")).err = none) :
    PartprobeCmd "" = "partprobe " ∧
    Partition.SyncPartitionTable e "" = ⟨(), none, ["partprobe "]⟩ := by
  refine ⟨by decide, ?_⟩
  have hc : PartprobeCmd "" = "partprobe " := by decide
  simp only [Partition.SyncPartitionTable, hc, hc ▸ h]

/-- C7 witness: the empty-device sync against a succeeding executor stub. -/
theorem claim_C7_syncPartitionTable_empty_device_witness :
    PartprobeCmd "" = "partprobe " ∧
    Partition.SyncPartitionTable (okExec "") "" = ⟨(), none, ["partprobe "]⟩ :=
  claim_C7_syncPartitionTable_empty_device (okExec "") rfl

/-- C9: for every executor behaviour, device and pair of partition-number
arguments, IsPartitionExists returns the same boolean, the same error-ness
and the same issued commands for both partition numbers: the decision depends
only on the device probe. -/
theorem claim_C9_isPartitionExists_ignores_partNum (e : CmdExecutor) (device p1 p2 : String) :
    (Partition.IsPartitionExists e device p1).value
        = (Partition.IsPartitionExists e device p2).value ∧
    ((Partition.IsPartitionExists e device p1).err = none ↔
      (Partition.IsPartitionExists e device p2).err = none) ∧
    (Partition.IsPartitionExists e device p1).calls
        = (Partition.IsPartitionExists e device p2).calls := by
  unfold Partition.IsPartitionExists
  cases h : (e (PartprobeDeviceCmd device)).err <;> simp [h]

/-- C10: when the probe stdout does not contain the substring "partitions" at
all, IsPartitionExists with a succeeding executor reports false with a nil
error (no parse error): the absent token is indistinguishable from "no
partitions". -/
theorem claim_C10_isPartitionExists_token_absent (e : CmdExecutor) (device partNum : String)
    (herr : (e (PartprobeDeviceCmd device)).err = none)
    (hnc : containsStr (e (PartprobeDeviceCmd device)).stdout "partitions" = false) :
    Partition.IsPartitionExists e device partNum =
      ⟨false, none, [PartprobeDeviceCmd device]⟩ := by
  have h2 : containsSubL ("partitions".data)
      (trimSpace (e (PartprobeDeviceCmd device)).stdout).data = false := by
    by_contra hx
    rw [Bool.not_eq_false] at hx
    have := containsSubL_of_infix (trimSpace_isInfixOfInput (e (PartprobeDeviceCmd device)).stdout) hx
    rw [containsStr] at hnc
    rw [this] at hnc
    exact absurd hnc (by simp)
  have hsplit : goSplitStr (trimSpace (e (PartprobeDeviceCmd device)).stdout) "partitions"
      = [String.mk (trimSpace (e (PartprobeDeviceCmd device)).stdout).data] := by
    rw [goSplitStr, goSplitL_of_not_contains (by decide) h2]
    rfl
  simp only [Partition.IsPartitionExists, herr]
  rw [if_neg]
  rw [hsplit]
  simp

/-- C10 witness: an empty probe stdout (no "partitions" token) yields false
with a nil error. -/
theorem claim_C10_isPartitionExists_token_absent_witness :
    Partition.IsPartitionExists (okExec "") "/dev/sdx" "1" =
      ⟨false, none, [PartprobeDeviceCmd "/dev/sdx"]⟩ :=
  claim_C10_isPartitionExists_token_absent (okExec "") "/dev/sdx" "1" rfl (by decide)

/-- C2 counterexample: for stdout consisting of exactly the label with
nothing after it — a line that contains the label but has no non-empty
remainder — GetPartitionUUID succeeds with the empty string and a nil error,
instead of returning the parse error the claim requires. -/
theorem claim_C2_counterexample_empty_remainder :
    containsStr "Partition unique GUID:" Partition.partitionPresentation = true ∧
    (goSplitStr (trimSpace "Partition unique GUID:") Partition.partitionPresentation).getD 1 ""
      = "" ∧
    Partition.GetPartitionUUID (okExec "Partition unique GUID:") "/dev/sdy" "1" =
      ⟨"", none, [GetPartitionUUIDCmd "/dev/sdy" "1"]⟩ :=
  ⟨by decide, by decide, by decide⟩

/-- C2 amended: when the executor succeeds and no stdout line contains the
label, GetPartitionUUID returns the parse error naming the device; but a line
containing the label with an empty remainder yields the empty string with a
nil error (not a parse error). -/
theorem claim_C2_amended_getPartitionUUID_parse_error (e : CmdExecutor)
    (device partNum : String) :
    ((e (GetPartitionUUIDCmd device partNum)).err = none →
      (∀ l ∈ goSplitStr (e (GetPartitionUUIDCmd device partNum)).stdout "\n",
          containsStr l Partition.partitionPresentation = false) →
      Partition.GetPartitionUUID e device partNum =
        ⟨"", some ("unable to get partition GUID for device " ++ device),
          [GetPartitionUUIDCmd device partNum]⟩) ∧
    Partition.GetPartitionUUID (okExec "Partition unique GUID:") device partNum =
      ⟨"", none, [GetPartitionUUIDCmd device partNum]⟩ := by
  constructor
  · intro herr hlines
    simp only [Partition.GetPartitionUUID, herr]
    rw [guidFromLines_eq_none _ _ hlines]
  · have hg : Partition.guidFromLines Partition.partitionPresentation
        (goSplitStr "Partition unique GUID:" "\n") = some "" := by decide
    simp only [Partition.GetPartitionUUID, okExec]
    rw [hg]

/-- C2 amended witness: a label-free stdout yields the parse error naming the
device. -/
theorem claim_C2_amended_getPartitionUUID_parse_error_witness :
    Partition.GetPartitionUUID (okExec "no guid data") "/dev/sdz" "2" =
      ⟨"", some ("unable to get partition GUID for device " ++ "/dev/sdz"),
        [GetPartitionUUIDCmd "/dev/sdz" "2"]⟩ :=
  (claim_C2_amended_getPartitionUUID_parse_error (okExec "no guid data") "/dev/sdz" "2").1
    rfl (by decide)

/-- Follows the claim's words only, for comparison with the code: the
whitespace-separated tokens of a string (Go `strings.Fields`) — the maximal
runs of non-white-space characters, with no empty tokens. -/
def fieldsAuxL : List Char → List Char → List (List Char)
  | acc, [] => if acc.isEmpty then [] else [acc.reverse]
  | acc, c :: rest =>
    if goIsSpace c then
      if acc.isEmpty then fieldsAuxL [] rest else acc.reverse :: fieldsAuxL [] rest
    else fieldsAuxL (c :: acc) rest

/-- Follows the claim's words only: the list of whitespace-separated tokens
of a string. -/
def specWhitespaceTokens (s : String) : List String := (fieldsAuxL [] s.data).map String.mk

/-- C4 counterexample: for the probe stdout "/dev/sda:\tmsdos" (a tab, not a
space) the whitespace-split has two tokens with "msdos" at index 1, so the
claim requires the type "msdos"; the code splits on the single space
character, finds fewer than two elements, and returns the parse error with an
empty value instead. -/
theorem claim_C4_counterexample_tab_separator :
    2 ≤ (specWhitespaceTokens "/dev/sda:\tmsdos").length ∧
    (specWhitespaceTokens "/dev/sda:\tmsdos").getD 1 "" = "msdos" ∧
    (Partition.GetPartitionTableType (okExec "/dev/sda:\tmsdos") "/dev/sda").value = "" ∧
    (Partition.GetPartitionTableType (okExec "/dev/sda:\tmsdos") "/dev/sda").err =
      some ("unable to parse output " ++ sq ++ "/dev/sda:\tmsdos" ++ sq ++
        " for device " ++ "/dev/sda") :=
  ⟨by decide, by decide, by decide, by decide⟩

/-- C4 amended: with a succeeding executor, GetPartitionTableType splits the
probe stdout on the single space character (not on general whitespace) and
returns the element at index 1 of that split, or the parse error naming the
device when the split has fewer than two elements; on the claim's example
"/dev/sda: msdos partitions 1" it returns "msdos". -/
theorem claim_C4_amended_getPartitionTableType_space_split (e : CmdExecutor) (device : String)
    (herr : (e (PartprobeDeviceCmd device)).err = none) :
    ((goSplitStr (e (PartprobeDeviceCmd device)).stdout " ").length < 2 →
      Partition.GetPartitionTableType e device =
        ⟨"", some ("unable to parse output " ++ sq ++ (e (PartprobeDeviceCmd device)).stdout ++
          sq ++ " for device " ++ device), [PartprobeDeviceCmd device]⟩) ∧
    (2 ≤ (goSplitStr (e (PartprobeDeviceCmd device)).stdout " ").length →
      Partition.GetPartitionTableType e device =
        ⟨(goSplitStr (e (PartprobeDeviceCmd device)).stdout " ").getD 1 "", none,
          [PartprobeDeviceCmd device]⟩) ∧
    (Partition.GetPartitionTableType (okExec "/dev/sda: msdos partitions 1") "/dev/sda").value
      = "msdos" := by
  refine ⟨?_, ?_, by decide⟩
  · intro hlt
    simp only [Partition.GetPartitionTableType, herr]
    rw [if_pos hlt]
  · intro hge
    simp only [Partition.GetPartitionTableType, herr]
    rw [if_neg (by omega)]

/-- C4 amended witness: the space-split branch applied to the claim's probe
output. -/
theorem claim_C4_amended_getPartitionTableType_space_split_witness :
    Partition.GetPartitionTableType (okExec "/dev/sda: msdos partitions 1") "/dev/sda" =
      ⟨(goSplitStr "/dev/sda: msdos partitions 1" " ").getD 1 "", none,
        [PartprobeDeviceCmd "/dev/sda"]⟩ :=
  (claim_C4_amended_getPartitionTableType_space_split
    (okExec "/dev/sda: msdos partitions 1") "/dev/sda" rfl).2.1 (by decide)

/-- The sgdisk info-report example reproduced in the source comment. -/
def sgdiskInfoExample : String :=
  "Partition GUID code: 0FC63DAF-8483-4772-8E79-3D69D8477DE4 (Linux filesystem)\n" ++
  "Partition unique GUID: 5209CFD8-3AB1-4720-BCEA-DFA80315EC92\n" ++
  "First sector: 2048 (at 1024.0 KiB)\n" ++
  "Last sector: 999423 (at 488.0 MiB)\n" ++
  "Partition size: 997376 sectors (487.0 MiB)\n" ++
  "Attribute flags: 0000000000000000\n" ++
  "Partition name: ''"

/-- C5: on the sgdisk example report GetPartitionUUID returns the unique GUID
trimmed and lower-cased; and in general, with a succeeding executor, the
first stdout line containing the label determines the result, which is the
piece after the label of that trimmed line, trimmed and lower-cased. -/
theorem claim_C5_getPartitionUUID_extraction :
    Partition.GetPartitionUUID (okExec sgdiskInfoExample) "/dev/sdy" "1" =
      ⟨"5209cfd8-3ab1-4720-bcea-dfa80315ec92", none, [GetPartitionUUIDCmd "/dev/sdy" "1"]⟩ ∧
    ∀ (e : CmdExecutor) (device partNum : String) (pfx : List String) (line : String)
      (sfx : List String),
      (e (GetPartitionUUIDCmd device partNum)).err = none →
      goSplitStr (e (GetPartitionUUIDCmd device partNum)).stdout "\n" = pfx ++ line :: sfx →
      (∀ l ∈ pfx, containsStr l Partition.partitionPresentation = false) →
      containsStr line Partition.partitionPresentation = true →
      Partition.GetPartitionUUID e device partNum =
        ⟨goToLower (trimSpace ((goSplitStr (trimSpace line)
            Partition.partitionPresentation).getD 1 "")), none,
          [GetPartitionUUIDCmd device partNum]⟩ := by
  constructor
  · decide
  · intro e device partNum pfx line sfx herr hsplit hpfx hline
    have hlen : 1 < (goSplitStr (trimSpace line) Partition.partitionPresentation).length :=
      goSplitStr_trim_one_lt (by decide) (by decide) hline
    simp only [Partition.GetPartitionUUID, herr]
    rw [hsplit, guidFromLines_append_skip _ _ pfx hpfx, guidFromLines_cons_match sfx hline hlen]

/-- C5 witness: the first-match extraction applied to a two-line report with
a leading label-free line. -/
theorem claim_C5_getPartitionUUID_extraction_witness :
    Partition.GetPartitionUUID (okExec "noise\nPartition unique GUID: ABC-123\nrest")
        "/dev/sdy" "1" =
      ⟨goToLower (trimSpace ((goSplitStr (trimSpace "Partition unique GUID: ABC-123")
          Partition.partitionPresentation).getD 1 "")), none,
        [GetPartitionUUIDCmd "/dev/sdy" "1"]⟩ :=
  claim_C5_getPartitionUUID_extraction.2 (okExec "noise\nPartition unique GUID: ABC-123\nrest")
    "/dev/sdy" "1" ["noise"] "Partition unique GUID: ABC-123" ["rest"] rfl (by decide)
    (by decide) (by decide)

/-- C6: every operation propagates an executor failure on its command as a
non-nil error, and IsPartitionExists additionally reports false (never true)
together with its error. -/
theorem claim_C6_executor_failure_propagation (e : CmdExecutor)
    (device partNum partTableType partName partUUID : String) :
    ((e (PartprobeDeviceCmd device)).err ≠ none →
      (Partition.IsPartitionExists e device partNum).err ≠ none ∧
      (Partition.IsPartitionExists e device partNum).value = false) ∧
    ((e (PartprobeDeviceCmd device)).err ≠ none →
      (Partition.GetPartitionTableType e device).err ≠ none) ∧
    ((e (CreatePartitionTableCmd device partTableType)).err ≠ none →
      (Partition.CreatePartitionTable e device partTableType).err ≠ none) ∧
    ((e (CreatePartitionCmd device partName)).err ≠ none →
      (Partition.CreatePartition e device partName).err ≠ none) ∧
    ((e (DeletePartitionCmd device partNum)).err ≠ none →
      (Partition.DeletePartition e device partNum).err ≠ none) ∧
    ((e (SetPartitionUUIDCmd device partNum partUUID)).err ≠ none →
      (Partition.SetPartitionUUID e device partNum partUUID).err ≠ none) ∧
    ((e (GetPartitionUUIDCmd device partNum)).err ≠ none →
      (Partition.GetPartitionUUID e device partNum).err ≠ none) ∧
    ((e (PartprobeCmd device)).err ≠ none →
      (Partition.SyncPartitionTable e device).err ≠ none) := by
  refine ⟨?_, ?_, ?_, ?_, ?_, ?_, ?_, ?_⟩
  · intro h
    cases hx : (e (PartprobeDeviceCmd device)).err with
    | none => exact absurd hx h
    | some m => simp [Partition.IsPartitionExists, hx]
  · intro h
    cases hx : (e (PartprobeDeviceCmd device)).err with
    | none => exact absurd hx h
    | some m => simp [Partition.GetPartitionTableType, hx]
  · intro h
    by_cases hcon : ContainsString supportedTypes partTableType
    · cases hx : (e (CreatePartitionTableCmd device partTableType)).err with
      | none => exact absurd hx h
      | some m => simp [Partition.CreatePartitionTable, hcon, hx]
    · simp [Partition.CreatePartitionTable, hcon]
  · intro h
    cases hx : (e (CreatePartitionCmd device partName)).err with
    | none => exact absurd hx h
    | some m => simp [Partition.CreatePartition, hx]
  · intro h
    cases hx : (e (DeletePartitionCmd device partNum)).err with
    | none => exact absurd hx h
    | some m => simp [Partition.DeletePartition, hx]
  · intro h
    cases hx : (e (SetPartitionUUIDCmd device partNum partUUID)).err with
    | none => exact absurd hx h
    | some m => simp [Partition.SetPartitionUUID, hx]
  · intro h
    cases hx : (e (GetPartitionUUIDCmd device partNum)).err with
    | none => exact absurd hx h
    | some m => simp [Partition.GetPartitionUUID, hx]
  · intro h
    cases hx : (e (PartprobeCmd device)).err with
    | none => exact absurd hx h
    | some m => simp [Partition.SyncPartitionTable, hx]

/-- C6 witness: a failing executor makes every operation fail, and the
existence check reports false. -/
theorem claim_C6_executor_failure_propagation_witness :
    ((Partition.IsPartitionExists (failExec "boom" "exit status 1") "/dev/sda" "1").err ≠ none ∧
     (Partition.IsPartitionExists (failExec "boom" "exit status 1") "/dev/sda" "1").value
       = false) ∧
    (Partition.GetPartitionTableType (failExec "boom" "exit status 1") "/dev/sda").err ≠ none ∧
    (Partition.CreatePartitionTable (failExec "boom" "exit status 1") "/dev/sda" "gpt").err
      ≠ none ∧
    (Partition.CreatePartition (failExec "boom" "exit status 1") "/dev/sda" "p1").err ≠ none ∧
    (Partition.DeletePartition (failExec "boom" "exit status 1") "/dev/sda" "1").err ≠ none ∧
    (Partition.SetPartitionUUID (failExec "boom" "exit status 1") "/dev/sda" "1" "u-1").err
      ≠ none ∧
    (Partition.GetPartitionUUID (failExec "boom" "exit status 1") "/dev/sda" "1").err ≠ none ∧
    (Partition.SyncPartitionTable (failExec "boom" "exit status 1") "/dev/sda").err ≠ none := by
  have h := claim_C6_executor_failure_propagation (failExec "boom" "exit status 1")
    "/dev/sda" "1" "gpt" "p1" "u-1"
  exact ⟨h.1 (by decide), h.2.1 (by decide), h.2.2.1 (by decide), h.2.2.2.1 (by decide),
    h.2.2.2.2.1 (by decide), h.2.2.2.2.2.1 (by decide), h.2.2.2.2.2.2.1 (by decide),
    h.2.2.2.2.2.2.2 (by decide)⟩

/-- C8: on executor failure DeletePartition wraps the error with the
partition number, the device, the captured stderr and the executor error
text — so the message contains the device, the partition number and the
stderr text — while CreatePartition and SetPartitionUUID return the raw
executor error unwrapped. -/
theorem claim_C8_delete_wraps_create_set_unwrapped (e : CmdExecutor)
    (device partNum partName partUUID : String) :
    (∀ m, (e (DeletePartitionCmd device partNum)).err = some m →
      (Partition.DeletePartition e device partNum).err =
        some ("unable to delete partition " ++ goQuoteV partNum ++ " from device " ++ device ++
          ": " ++ (e (DeletePartitionCmd device partNum)).stderr ++ ", error: " ++ m) ∧
      ∀ msg, (Partition.DeletePartition e device partNum).err = some msg →
        OccursIn msg device ∧ OccursIn msg partNum ∧
          OccursIn msg (e (DeletePartitionCmd device partNum)).stderr) ∧
    (∀ m, (e (CreatePartitionCmd device partName)).err = some m →
      (Partition.CreatePartition e device partName).err = some m) ∧
    (∀ m, (e (SetPartitionUUIDCmd device partNum partUUID)).err = some m →
      (Partition.SetPartitionUUID e device partNum partUUID).err = some m) := by
  refine ⟨?_, ?_, ?_⟩
  · intro m hm
    have herr2 : (Partition.DeletePartition e device partNum).err =
        some ("unable to delete partition " ++ goQuoteV partNum ++ " from device " ++ device ++
          ": " ++ (e (DeletePartitionCmd device partNum)).stderr ++ ", error: " ++ m) := by
      simp only [Partition.DeletePartition, hm]
    refine ⟨herr2, ?_⟩
    intro msg hmsg
    rw [herr2] at hmsg
    have hmsg2 := Option.some.inj hmsg
    subst hmsg2
    refine ⟨⟨("unable to delete partition " ++ goQuoteV partNum ++ " from device ").data,
        (": " ++ (e (DeletePartitionCmd device partNum)).stderr ++ ", error: " ++ m).data,
        by simp⟩,
      ⟨("unable to delete partition " ++ "\"").data,
        ("\"" ++ " from device " ++ device ++ ": " ++
          (e (DeletePartitionCmd device partNum)).stderr ++ ", error: " ++ m).data,
        by simp [goQuoteV]⟩,
      ⟨("unable to delete partition " ++ goQuoteV partNum ++ " from device " ++ device ++
          ": ").data, (", error: " ++ m).data, by simp⟩⟩
  · intro m hm
    simp only [Partition.CreatePartition, hm]
  · intro m hm
    simp only [Partition.SetPartitionUUID, hm]

/-- C8 witness: the wrapped deletion error and the unwrapped creation and
GUID-assignment errors, at a concrete failing executor. -/
theorem claim_C8_delete_wraps_create_set_unwrapped_witness :
    (Partition.DeletePartition (failExec "boom" "exit status 1") "/dev/sda" "3").err =
      some ("unable to delete partition " ++ goQuoteV "3" ++ " from device " ++ "/dev/sda" ++
        ": " ++ (failExec "boom" "exit status 1" (DeletePartitionCmd "/dev/sda" "3")).stderr ++
        ", error: " ++ "exit status 1") ∧
    (Partition.CreatePartition (failExec "boom" "exit status 1") "/dev/sda" "p1").err =
      some "exit status 1" ∧
    (Partition.SetPartitionUUID (failExec "boom" "exit status 1") "/dev/sda" "3" "u-1").err =
      some "exit status 1" :=
  ⟨((claim_C8_delete_wraps_create_set_unwrapped (failExec "boom" "exit status 1")
      "/dev/sda" "3" "p1" "u-1").1 "exit status 1" rfl).1,
   (claim_C8_delete_wraps_create_set_unwrapped (failExec "boom" "exit status 1")
      "/dev/sda" "3" "p1" "u-1").2.1 "exit status 1" rfl,
   (claim_C8_delete_wraps_create_set_unwrapped (failExec "boom" "exit status 1")
      "/dev/sda" "3" "p1" "u-1").2.2 "exit status 1" rfl⟩

end PartitionHelper
